import Mathlib

/-!
Verification of the F1-Telemetry-Analyze lap telemetry analysis engine.

The repository consists of a Next.js frontend (src/frontend), REST API
documentation (src/docs/API.md), a Solidity registry contract
(src/contracts/contracts/F1TelemetryRegistry.sol) and auxiliary scripts.
The backend analysis engine (sector segmenter, lap-time predictor, mistake
  detector, performance scorer, orchestrator) is a Python service whose
source is not part of this tree; its behaviour is modelled here from the
specification and checked against the declarations and callers that are in
the tree (the TypeScript API client, the TypeScript data types, the API
documentation, and the frontend sector computation).  The Solidity contract
is embedded directly from its source.

All real-valued quantities are modelled as rationals; Solidity uint256
arithmetic is modelled as natural numbers with explicit overflow reverts
(Solidity 0.8 checked arithmetic).
-/

/-- One telemetry sensor reading, from the TypeScript interface
`TelemetryDataPoint` in src/frontend/types/telemetry.ts (which mirrors the
backend Pydantic schema). -/
structure TelemetrySample where
  lap_number : ℕ
  sector : ℕ
  timestamp : ℚ
  speed : ℚ
  throttle : ℚ
  brake : ℚ
  steering_angle : ℚ
  gear : ℕ
  tire_compound : String
  tire_wear : ℚ
  track_temperature : ℚ
  lap_time : Option ℚ
deriving DecidableEq

/-- Mistake severity, from the TypeScript union in `DriverMistake`
(src/frontend/types/telemetry.ts). -/
inductive Severity where
  | low
  | medium
  | high
deriving DecidableEq

/-- The five mistake types listed in src/docs/API.md and the spec. -/
inductive MistakeType where
  | late_braking
  | throttle_inconsistency
  | throttle_lift
  | tire_degradation
  | low_corner_speed
deriving DecidableEq

/-- A detected driving mistake, from the TypeScript interface
`DriverMistake` in src/frontend/types/telemetry.ts. -/
structure Mistake where
  sector : ℕ
  mtype : MistakeType
  severity : Severity
  description : String
  time_lost : ℚ
deriving DecidableEq

/-- Modelled from the spec: severity is derived purely from time lost with
the fixed thresholds documented in src/docs/API.md (low below 0.1s, medium
0.1 to 0.3s, high above 0.3s). -/
def severityFor (timeLost : ℚ) : Severity :=
  if timeLost < 1/10 then .low
  else if timeLost ≤ 3/10 then .medium
  else .high

/-- Modelled from the spec: every detector pass builds its mistakes through
this constructor, so severity is always derived from time lost. -/
def mkMistake (sector : ℕ) (t : MistakeType) (desc : String) (timeLost : ℚ) :
    Mistake :=
  ⟨sector, t, severityFor timeLost, desc, timeLost⟩

/-- Modelled from the spec: the severity-weighted extra penalty in the
Performance Scorer (low adds 1, medium adds 3, high adds 6 on top of the
flat 5 points per mistake). -/
def severityBonus : Severity → ℚ
  | .low => 1
  | .medium => 3
  | .high => 6

/-- Modelled from the spec: the total mistake penalty of the Performance
Scorer; each mistake costs a flat 5 points plus its severity bonus. -/
def mistakePenalty (ms : List Mistake) : ℚ :=
  (ms.map (fun m => 5 + severityBonus m.severity)).sum

/-- Modelled from the spec: the Performance Scorer (backend engine, not in
the tree).  The base score is 100 minus 20 times the percentage delta, the
mistake penalty is subtracted, and the result is clamped to the interval
from 0 to 100. -/
def performanceScore (actual predicted : ℚ) (ms : List Mistake) : ℚ :=
  max 0 (min 100 (100 - (|actual - predicted| / predicted * 100) * 20
    - mistakePenalty ms))

theorem severityBonus_nonneg (s : Severity) : 0 ≤ severityBonus s := by
  cases s <;> norm_num [severityBonus]

theorem mistakePenalty_append (ms : List Mistake) (m : Mistake) :
    mistakePenalty (ms ++ [m]) = mistakePenalty ms + (5 + severityBonus m.severity) := by
  simp [mistakePenalty]

theorem clamp_mono {x y : ℚ} (h : x ≤ y) :
    max 0 (min 100 x) ≤ max 0 (min 100 y) :=
  max_le_max le_rfl (min_le_min le_rfl h)

/-- The error taxonomy of the analysis engine, from the spec's section 7
and the documented error responses in src/docs/API.md. -/
inductive AnalysisError where
  | LapNotFound
  | EmptyLapData
  | MissingLapTime
  | InvalidParameter
deriving DecidableEq

/-- HTTP status class used when an error is surfaced, from src/docs/API.md:
a missing lap is 404, bad or missing request data is 400. -/
def httpStatusOf : AnalysisError → ℕ
  | .LapNotFound => 404
  | .EmptyLapData => 400
  | .MissingLapTime => 400
  | .InvalidParameter => 400

/-- Tire compound enumeration, from the validation rules in
src/docs/API.md (soft, medium or hard). -/
inductive TireCompound where
  | soft
  | medium
  | hard
deriving DecidableEq

/-- Parsing of the string-typed compound field used by the TypeScript
types and the API query parameter. -/
def parseCompound : String → Option TireCompound
  | "soft" => some .soft
  | "medium" => some .medium
  | "hard" => some .hard
  | _ => none

/-- Output of the Lap Time Predictor, from the TypeScript interface
`LapTimePrediction` in src/frontend/types/telemetry.ts. -/
structure PredictionResult where
  predicted_time : ℚ
  confidence_interval : ℚ × ℚ
  key_factors : List (String × ℚ)
deriving DecidableEq

/-- Modelled from the spec: the compound's additive effect on the fallback
predicted time (soft is the fastest baseline, hard the slowest). -/
def compoundOffset : TireCompound → ℚ
  | .soft => 0
  | .medium => 1/2
  | .hard => 1

/-- Modelled from the spec: per-percentage-point wear penalty; soft
degrades fastest, encoding the compound-wear interaction. -/
def wearRate : TireCompound → ℚ
  | .soft => 1/20
  | .medium => 1/25
  | .hard => 3/100

/-- The static fallback feature importances, as documented in the
predict-laptime response of src/docs/API.md (0.35, 0.30, 0.20, 0.15). -/
def fallbackKeyFactors : List (String × ℚ) :=
  [("tire_compound", 35/100), ("tire_wear", 30/100),
   ("track_temperature", 20/100), ("avg_speed", 15/100)]

/-- Modelled from the spec: the deterministic fallback heuristic of the
Lap Time Predictor (backend engine, not in the tree): a base time adjusted
additively for compound, wear, track temperature and average speed. -/
def fallbackPredictedTime (c : TireCompound) (wear temp speed : ℚ) : ℚ :=
  85 + compoundOffset c + wearRate c * wear + (temp - 30) / 50
    + (210 - speed) / 100

/-- Modelled from the spec: the wear-scaled half-width of the confidence
interval. -/
def predictMargin (wear : ℚ) : ℚ := 1/2 + wear/100

/-- Modelled from the spec: the Lap Time Predictor (backend engine, not in
the tree).  Inputs are validated against the documented ranges before any
computation; out-of-range inputs fail with InvalidParameter. -/
def predict (compound : String) (wear temp speed : ℚ) :
    Except AnalysisError PredictionResult :=
  match parseCompound compound with
  | none => .error .InvalidParameter
  | some c =>
    if wear < 0 ∨ 100 < wear then .error .InvalidParameter
    else if temp < 0 ∨ 60 < temp then .error .InvalidParameter
    else if speed ≤ 0 ∨ 400 < speed then .error .InvalidParameter
    else
      .ok { predicted_time := fallbackPredictedTime c wear temp speed,
            confidence_interval :=
              (fallbackPredictedTime c wear temp speed - predictMargin wear,
               fallbackPredictedTime c wear temp speed + predictMargin wear),
            key_factors := fallbackKeyFactors }

theorem fallbackPredictedTime_pos (c : TireCompound) (wear temp speed : ℚ)
    (hw : 0 ≤ wear) (ht : 0 ≤ temp) (hs : speed ≤ 400) :
    0 < fallbackPredictedTime c wear temp speed := by
  have h1 : 0 ≤ wearRate c * wear :=
    mul_nonneg (by cases c <;> norm_num [wearRate]) hw
  have h2 : 0 ≤ compoundOffset c := by cases c <;> norm_num [compoundOffset]
  unfold fallbackPredictedTime
  linarith

/-- Consecutive sample pairs of a lap trace, used by the pairwise
detector heuristics. -/
def samplePairs (pts : List TelemetrySample) :
    List (TelemetrySample × TelemetrySample) :=
  pts.zip pts.tail

/-- Modelled from the spec: the late braking pass of the Mistake Detector
(backend engine, not in the tree): flag a sample whose brake input exceeds
80 percent while the immediately preceding sample's speed exceeds 250
km/h; with no reference lap available, time lost is the fixed default 0.3s
inside the documented 0.1 to 0.5s range. -/
def lateBrakingPass (pts : List TelemetrySample) : List Mistake :=
  (samplePairs pts).filterMap fun pr =>
    if 80 < pr.2.brake ∧ 250 < pr.1.speed then
      some (mkMistake pr.2.sector .late_braking
        "Late braking detected - braking from high speed" (3/10))
    else none

/-- Modelled from the spec: sudden throttle drops (more than 30 percentage
points within a one second window) between consecutive samples. -/
def throttleDrops (pts : List TelemetrySample) :
    List (TelemetrySample × TelemetrySample) :=
  (samplePairs pts).filter fun pr =>
    30 < pr.1.throttle - pr.2.throttle ∧ pr.2.timestamp - pr.1.timestamp ≤ 1

/-- Modelled from the spec: the throttle inconsistency pass of the Mistake
Detector: fires when at least two sudden throttle drops occur in the same
lap; time lost scales with the drop count. -/
def throttleInconsistencyPass (pts : List TelemetrySample) : List Mistake :=
  match throttleDrops pts with
  | d1 :: _ :: rest =>
      [mkMistake d1.2.sector .throttle_inconsistency
        "Multiple sudden throttle drops within the lap"
        ((2/25) * (2 + (rest.length : ℚ)))]
  | _ => []

/-- Modelled from the spec: the throttle lift pass of the Mistake
Detector: flag samples in a full-throttle zone (sustained high speed and
high gear) where throttle never reaches near-full application. -/
def throttleLiftPass (pts : List TelemetrySample) : List Mistake :=
  pts.filterMap fun p =>
    if 280 < p.speed ∧ 7 ≤ p.gear ∧ p.throttle < 98 then
      some (mkMistake p.sector .throttle_lift
        "Throttle not reaching full application on a straight" (3/20))
    else none

/-- Modelled from the spec: the tire degradation pass of the Mistake
Detector: fires on the first sample whose tire wear exceeds 40 percent;
time lost scales with the wear percentage. -/
def tireDegradationPass (pts : List TelemetrySample) : List Mistake :=
  match pts.find? (fun p => 40 < p.tire_wear) with
  | some p => [mkMistake p.sector .tire_degradation
      "Significant tire degradation affecting performance" (p.tire_wear / 200)]
  | none => []

/-- Minimum recorded speed among a sector's samples, when the sector has
data. -/
def sectorMinSpeed (pts : List TelemetrySample) (sec : ℕ) : Option ℚ :=
  match (pts.filter fun p => p.sector = sec).map (fun p => p.speed) with
  | [] => none
  | v :: vs => some (vs.foldl min v)

/-- Modelled from the spec: the low corner speed pass of the Mistake
Detector: per sector, fire when the minimum speed falls below the
configured reference minimum of 100 km/h; time lost scales with the speed
deficit. -/
def lowCornerSpeedPass (pts : List TelemetrySample) : List Mistake :=
  [1, 2, 3].filterMap fun sec =>
    match sectorMinSpeed pts sec with
    | none => none
    | some v =>
      if v < 100 then
        some (mkMistake sec .low_corner_speed
          "Minimum corner speed below expected reference" ((100 - v) / 100))
      else none

/-- Modelled from the spec: the Mistake Detector (backend engine, not in
the tree) runs the five independent heuristic passes and concatenates
their results in pass-declaration order. -/
def detectMistakes (pts : List TelemetrySample) : List Mistake :=
  lateBrakingPass pts ++ throttleInconsistencyPass pts ++ throttleLiftPass pts
    ++ tireDegradationPass pts ++ lowCornerSpeedPass pts

theorem mkMistake_severity_derived (sec : ℕ) (ty : MistakeType) (d : String)
    (t : ℚ) (ht : 0 < t) :
    (mkMistake sec ty d t).severity = severityFor (mkMistake sec ty d t).time_lost
      ∧ 0 < (mkMistake sec ty d t).time_lost :=
  ⟨rfl, ht⟩

theorem lateBrakingPass_severity (pts : List TelemetrySample) (m : Mistake)
    (hm : m ∈ lateBrakingPass pts) :
    m.severity = severityFor m.time_lost ∧ 0 < m.time_lost := by
  rw [lateBrakingPass, List.mem_filterMap] at hm
  obtain ⟨pr, _, hpr⟩ := hm
  by_cases hcond : 80 < pr.2.brake ∧ 250 < pr.1.speed
  · rw [if_pos hcond] at hpr
    simp only [Option.some.injEq] at hpr
    subst hpr
    exact mkMistake_severity_derived _ _ _ _ (by norm_num)
  · rw [if_neg hcond] at hpr
    cases hpr

theorem throttleInconsistencyPass_severity (pts : List TelemetrySample)
    (m : Mistake) (hm : m ∈ throttleInconsistencyPass pts) :
    m.severity = severityFor m.time_lost ∧ 0 < m.time_lost := by
  rw [throttleInconsistencyPass] at hm
  rcases heq : throttleDrops pts with _ | ⟨d1, _ | ⟨d2, rest⟩⟩ <;> rw [heq] at hm
  · cases hm
  · cases hm
  · rw [List.mem_singleton] at hm
    subst hm
    apply mkMistake_severity_derived
    have : (0 : ℚ) ≤ (rest.length : ℚ) := Nat.cast_nonneg _
    nlinarith

theorem throttleLiftPass_severity (pts : List TelemetrySample) (m : Mistake)
    (hm : m ∈ throttleLiftPass pts) :
    m.severity = severityFor m.time_lost ∧ 0 < m.time_lost := by
  rw [throttleLiftPass, List.mem_filterMap] at hm
  obtain ⟨p, _, hp⟩ := hm
  by_cases hcond : 280 < p.speed ∧ 7 ≤ p.gear ∧ p.throttle < 98
  · rw [if_pos hcond] at hp
    simp only [Option.some.injEq] at hp
    subst hp
    exact mkMistake_severity_derived _ _ _ _ (by norm_num)
  · rw [if_neg hcond] at hp
    cases hp

theorem tireDegradationPass_severity (pts : List TelemetrySample) (m : Mistake)
    (hm : m ∈ tireDegradationPass pts) :
    m.severity = severityFor m.time_lost ∧ 0 < m.time_lost := by
  rw [tireDegradationPass] at hm
  rcases heq : pts.find? (fun p => 40 < p.tire_wear) with _ | p <;> rw [heq] at hm
  · cases hm
  · rw [List.mem_singleton] at hm
    subst hm
    have hwear : (40 : ℚ) < p.tire_wear := by
      have := List.find?_some heq
      exact of_decide_eq_true this
    exact mkMistake_severity_derived _ _ _ _ (by linarith)

theorem lowCornerSpeedPass_severity (pts : List TelemetrySample) (m : Mistake)
    (hm : m ∈ lowCornerSpeedPass pts) :
    m.severity = severityFor m.time_lost ∧ 0 < m.time_lost := by
  rw [lowCornerSpeedPass, List.mem_filterMap] at hm
  obtain ⟨sec, _, hsec⟩ := hm
  rcases heq : sectorMinSpeed pts sec with _ | v <;> rw [heq] at hsec
  · cases hsec
  · dsimp only at hsec
    by_cases hcond : v < 100
    · rw [if_pos hcond] at hsec
      simp only [Option.some.injEq] at hsec
      subst hsec
      exact mkMistake_severity_derived _ _ _ _
        (div_pos (by linarith) (by norm_num))
    · rw [if_neg hcond] at hsec
      cases hsec

/-- The explicit severity thresholds encoded by severityFor. -/
theorem severityFor_thresholds (t : ℚ) :
    (t < 1/10 → severityFor t = .low)
      ∧ (1/10 ≤ t ∧ t ≤ 3/10 → severityFor t = .medium)
      ∧ (3/10 < t → severityFor t = .high) := by
  refine ⟨fun h => ?_, fun h => ?_, fun h => ?_⟩ <;> unfold severityFor
  · rw [if_pos h]
  · rw [if_neg (not_lt.2 h.1), if_pos h.2]
  · rw [if_neg (by linarith), if_neg (not_le.2 h)]

/-- C4: every mistake emitted by the Mistake Detector carries a strictly
positive time lost and a severity bucket that is a pure function of that
time lost under the fixed thresholds (low below 0.1s, medium between 0.1s
and 0.3s, high above 0.3s). -/
theorem detectMistakes_severity_consistent (pts : List TelemetrySample)
    (m : Mistake) (hm : m ∈ detectMistakes pts) :
    m.severity = severityFor m.time_lost ∧ 0 < m.time_lost
      ∧ (m.time_lost < 1/10 → m.severity = .low)
      ∧ (1/10 ≤ m.time_lost ∧ m.time_lost ≤ 3/10 → m.severity = .medium)
      ∧ (3/10 < m.time_lost → m.severity = .high) := by
  have hbase : m.severity = severityFor m.time_lost ∧ 0 < m.time_lost := by
    rw [detectMistakes] at hm
    simp only [List.mem_append] at hm
    rcases hm with (((hm | hm) | hm) | hm) | hm
    · exact lateBrakingPass_severity pts m hm
    · exact throttleInconsistencyPass_severity pts m hm
    · exact throttleLiftPass_severity pts m hm
    · exact tireDegradationPass_severity pts m hm
    · exact lowCornerSpeedPass_severity pts m hm
  obtain ⟨hder, hpos⟩ := hbase
  have hth := severityFor_thresholds m.time_lost
  exact ⟨hder, hpos,
    fun h => by rw [hder]; exact hth.1 h,
    fun h => by rw [hder]; exact hth.2.1 h,
    fun h => by rw [hder]; exact hth.2.2 h⟩

/-- A concrete one-sample lap used by witnesses: high tire wear triggers
the tire degradation pass and nothing else. -/
def wornSample : TelemetrySample :=
  ⟨1, 1, 0, 200, 100, 0, 0, 5, "soft", 50, 40, some 90⟩

/-- The mistake the detector emits on the worn one-sample lap. -/
def wornMistake : Mistake :=
  mkMistake 1 .tire_degradation
    "Significant tire degradation affecting performance" (1/4)

theorem detectMistakes_eval_worn :
    detectMistakes [wornSample] = [wornMistake] := by
  norm_num [detectMistakes, lateBrakingPass, throttleInconsistencyPass,
    throttleDrops, samplePairs, throttleLiftPass, tireDegradationPass,
    lowCornerSpeedPass, sectorMinSpeed, wornSample, wornMistake, mkMistake,
    severityFor, List.find?, List.filter, List.filterMap]

/-- Witness for C4: the worn sample emits a tire degradation mistake whose
severity agrees with its time lost. -/
theorem detectMistakes_severity_consistent_witness :
    wornMistake ∈ detectMistakes [wornSample]
      ∧ (wornMistake.severity = severityFor wornMistake.time_lost
        ∧ 0 < wornMistake.time_lost
        ∧ (wornMistake.time_lost < 1/10 → wornMistake.severity = .low)
        ∧ (1/10 ≤ wornMistake.time_lost ∧ wornMistake.time_lost ≤ 3/10 →
            wornMistake.severity = .medium)
        ∧ (3/10 < wornMistake.time_lost → wornMistake.severity = .high)) :=
  ⟨by rw [detectMistakes_eval_worn]; exact List.mem_singleton_self _,
    detectMistakes_severity_consistent [wornSample] wornMistake
      (by rw [detectMistakes_eval_worn]; exact List.mem_singleton_self _)⟩

/-- One step of the frontend sector accumulator, embedded from the reduce
callback in src/frontend/components/BlockchainVerification.tsx: on the
first sample of a sector both start and end are set to its timestamp, and
end is then updated to the running maximum timestamp. -/
def sectorUpd (acc : ℕ → Option (ℚ × ℚ)) (p : TelemetrySample) :
    ℕ → Option (ℚ × ℚ) :=
  fun sec =>
    if sec = p.sector then
      match acc sec with
      | none => some (p.timestamp, max p.timestamp p.timestamp)
      | some q => some (q.1, max q.2 p.timestamp)
    else acc sec

/-- The frontend per-sector start and end timestamps, embedded from the
sectorInfo reduce in src/frontend/components/BlockchainVerification.tsx. -/
def sectorInfo (pts : List TelemetrySample) : ℕ → Option (ℚ × ℚ) :=
  pts.foldl sectorUpd (fun _ => none)

/-- The per-sector accumulator step restricted to one sector's
timestamps. -/
def sectorStep (o : Option (ℚ × ℚ)) (t : ℚ) : Option (ℚ × ℚ) :=
  match o with
  | none => some (t, max t t)
  | some q => some (q.1, max q.2 t)

/-- Maximum minus minimum of a non-empty list of timestamps. -/
def spanStats : List ℚ → Option ℚ
  | [] => none
  | t :: ts => some (ts.foldl max t - ts.foldl min t)

/-- Modelled from the spec: the Sector Segmenter's duration rule (backend
engine, not in the tree): for each sector present among a lap's samples,
duration is the maximum timestamp minus the minimum timestamp of that
sector's samples; absent sectors yield no entry. -/
def sectorDurationSpec (pts : List TelemetrySample) (sec : ℕ) : Option ℚ :=
  spanStats ((pts.filter fun p => p.sector = sec).map (fun p => p.timestamp))

theorem sectorUpd_apply_eq (acc : ℕ → Option (ℚ × ℚ)) (p : TelemetrySample)
    (sec : ℕ) (h : sec = p.sector) :
    sectorUpd acc p sec = sectorStep (acc sec) p.timestamp := by
  subst h
  cases hacc : acc p.sector <;> simp [sectorUpd, sectorStep, hacc]

theorem sectorUpd_apply_ne (acc : ℕ → Option (ℚ × ℚ)) (p : TelemetrySample)
    (sec : ℕ) (h : ¬ sec = p.sector) :
    sectorUpd acc p sec = acc sec := by
  simp [sectorUpd, h]

theorem sectorInfo_foldl (pts : List TelemetrySample) :
    ∀ (acc : ℕ → Option (ℚ × ℚ)) (sec : ℕ),
      (pts.foldl sectorUpd acc) sec
        = ((pts.filter fun p => p.sector = sec).map
            (fun p => p.timestamp)).foldl sectorStep (acc sec) := by
  induction pts with
  | nil => intro acc sec; rfl
  | cons p ps ih =>
    intro acc sec
    rw [List.foldl_cons, ih]
    by_cases h : p.sector = sec
    · rw [List.filter_cons_of_pos (by simp [h]), List.map_cons,
        List.foldl_cons, sectorUpd_apply_eq acc p sec h.symm]
    · rw [List.filter_cons_of_neg (by simp [h]),
        sectorUpd_apply_ne acc p sec (fun hs => h hs.symm)]

theorem sectorStep_foldl_some (ts : List ℚ) :
    ∀ (s e : ℚ), ts.foldl sectorStep (some (s, e)) = some (s, ts.foldl max e) := by
  induction ts with
  | nil => intro s e; rfl
  | cons t ts ih =>
    intro s e
    rw [List.foldl_cons, List.foldl_cons]
    exact ih s (max e t)

theorem foldl_min_of_le (ts : List ℚ) :
    ∀ t, (∀ y ∈ ts, t ≤ y) → ts.foldl min t = t := by
  induction ts with
  | nil => intro t _; rfl
  | cons y ys ih =>
    intro t h
    rw [List.foldl_cons, min_eq_left (h y (List.mem_cons_self _ _))]
    exact ih t (fun z hz => h z (List.mem_cons_of_mem _ hz))

/-- C5: on a non-empty, timestamp-ordered lap trace, the per-sector
duration computed by the frontend (end minus start of sectorInfo) equals
the documented segmenter rule maximum minus minimum timestamp of the
sector's samples; a sector with exactly one sample gets duration 0, and a
sector absent from the data yields no entry rather than a failure. -/
theorem sectorInfo_matches_segmenter (pts : List TelemetrySample)
    (hne : pts ≠ [])
    (hsorted : pts.Pairwise (fun a b => a.timestamp ≤ b.timestamp)) (sec : ℕ) :
    (sectorInfo pts sec).map (fun q => q.2 - q.1) = sectorDurationSpec pts sec
      ∧ ((pts.filter fun p => p.sector = sec).length = 1 →
          (sectorInfo pts sec).map (fun q => q.2 - q.1) = some 0)
      ∧ ((pts.filter fun p => p.sector = sec) = [] → sectorInfo pts sec = none) := by
  have hinfo : sectorInfo pts sec
      = ((pts.filter fun p => p.sector = sec).map
          (fun p => p.timestamp)).foldl sectorStep none :=
    sectorInfo_foldl pts (fun _ => none) sec
  have hpair : ((pts.filter fun p => p.sector = sec).map
      (fun p => p.timestamp)).Pairwise (fun a b => a ≤ b) := by
    rw [List.pairwise_map]
    exact hsorted.filter _
  refine ⟨?_, ?_, ?_⟩
  · rcases hl : (pts.filter fun p => p.sector = sec).map (fun p => p.timestamp)
        with _ | ⟨t, ts⟩
    · rw [hinfo, hl]
      unfold sectorDurationSpec
      rw [hl]
      rfl
    · rw [hinfo, hl, List.foldl_cons]
      have hstep : sectorStep none t = some (t, max t t) := rfl
      rw [hstep, max_self, sectorStep_foldl_some ts t t]
      unfold sectorDurationSpec
      rw [hl]
      have hmin : ts.foldl min t = t := by
        apply foldl_min_of_le
        rw [hl] at hpair
        exact (List.pairwise_cons.mp hpair).1
      simp [spanStats, hmin]
  · intro hlen
    rcases hl : (pts.filter fun p => p.sector = sec) with _ | ⟨q, qs⟩
    · rw [hl] at hlen; cases hlen
    · rw [hl] at hlen
      simp only [List.length_cons, Nat.add_eq_zero, Nat.succ_inj] at hlen
      have hqs : qs = [] := List.length_eq_zero.mp hlen
      subst hqs
      rw [hinfo, hl]
      simp [sectorStep]
  · intro hempty
    rw [hinfo, hempty]
    rfl

/-- Three ordered samples: sector 1 holds two samples, sector 2 one,
sector 3 none. -/
def orderedTrace : List TelemetrySample :=
  [⟨1, 1, 0, 120, 100, 0, 0, 3, "soft", 5, 40, none⟩,
   ⟨1, 1, 10, 250, 100, 0, 0, 6, "soft", 5, 40, none⟩,
   ⟨1, 2, 20, 180, 80, 0, 0, 5, "soft", 5, 40, none⟩]

/-- Witness for C5 on the three-sample trace at sector 1. -/
theorem sectorInfo_matches_segmenter_witness :
    orderedTrace ≠ []
      ∧ orderedTrace.Pairwise (fun a b => a.timestamp ≤ b.timestamp)
      ∧ ((sectorInfo orderedTrace 1).map (fun q => q.2 - q.1)
            = sectorDurationSpec orderedTrace 1
        ∧ ((orderedTrace.filter fun p => p.sector = 1).length = 1 →
            (sectorInfo orderedTrace 1).map (fun q => q.2 - q.1) = some 0)
        ∧ ((orderedTrace.filter fun p => p.sector = 1) = [] →
            sectorInfo orderedTrace 1 = none)) :=
  ⟨by simp [orderedTrace],
    by norm_num [orderedTrace, List.pairwise_cons],
    sectorInfo_matches_segmenter orderedTrace (by simp [orderedTrace])
      (by norm_num [orderedTrace, List.pairwise_cons]) 1⟩

/-- The analysis result without its creation timestamp: the deterministic
part of `LapAnalysis` (src/frontend/types/telemetry.ts). -/
structure LapAnalysisCore where
  lap_number : ℕ
  predicted_lap_time : ℚ
  actual_lap_time : ℚ
  delta : ℚ
  performance_score : ℚ
  feedback : List String
  sector_times : List (ℕ × ℚ)
  mistakes_detected : List Mistake
deriving DecidableEq

/-- The orchestrator's output, from the TypeScript interface `LapAnalysis`
in src/frontend/types/telemetry.ts. -/
structure LapAnalysis where
  lap_number : ℕ
  predicted_lap_time : ℚ
  actual_lap_time : ℚ
  delta : ℚ
  performance_score : ℚ
  feedback : List String
  sector_times : List (ℕ × ℚ)
  mistakes_detected : List Mistake
  created_at : ℕ
deriving DecidableEq

/-- Forget the creation timestamp of an analysis result. -/
def stripCreated (r : LapAnalysis) : LapAnalysisCore :=
  ⟨r.lap_number, r.predicted_lap_time, r.actual_lap_time, r.delta,
   r.performance_score, r.feedback, r.sector_times, r.mistakes_detected⟩

/-- Modelled from the spec: the actual lap time is taken from the caller
when supplied, otherwise from the first sample carrying a lap_time
value. -/
def resolveLapTime (samples : List TelemetrySample) (caller : Option ℚ) :
    Option ℚ :=
  match caller with
  | some t => some t
  | none => samples.findSome? (fun p => p.lap_time)

/-- The sector-times mapping assembled from the per-sector start and end
timestamps, keyed by the sectors that have data. -/
def sectorTimesList (pts : List TelemetrySample) : List (ℕ × ℚ) :=
  [1, 2, 3].filterMap fun sec =>
    (sectorInfo pts sec).map (fun q => (sec, q.2 - q.1))

/-- Modelled from the spec: the sign-aware summary sentence that heads the
feedback list. -/
def deltaSummary (delta : ℚ) : String :=
  if 0 < delta then "Time loss detected - slower than predicted optimal"
  else "Lap faster than predicted optimal"

/-- Modelled from the spec: the Lap Analysis Orchestrator (backend engine,
not in the tree) without the creation timestamp: validates data
availability, resolves sector times, predicts from the first sample's
conditions and the lap's average speed, detects mistakes, scores, and
assembles feedback. -/
def analyzeCore (lap : ℕ) (samples : List TelemetrySample)
    (callerTime : Option ℚ) : Except AnalysisError LapAnalysisCore :=
  match samples with
  | [] => .error .EmptyLapData
  | first :: rest =>
    match resolveLapTime (first :: rest) callerTime with
    | none => .error .MissingLapTime
    | some actual =>
      match predict first.tire_compound first.tire_wear first.track_temperature
          (((first :: rest).map (fun p => p.speed)).sum
            / ((first :: rest).length : ℚ)) with
      | .error e => .error e
      | .ok pr =>
        .ok { lap_number := lap
              predicted_lap_time := pr.predicted_time
              actual_lap_time := actual
              delta := actual - pr.predicted_time
              performance_score :=
                performanceScore actual pr.predicted_time
                  (detectMistakes (first :: rest))
              feedback :=
                deltaSummary (actual - pr.predicted_time)
                  :: (detectMistakes (first :: rest)).map (fun m => m.description)
              sector_times := sectorTimesList (first :: rest)
              mistakes_detected := detectMistakes (first :: rest) }

/-- Modelled from the spec: the full analyze operation; the clock argument
is used only to stamp created_at. -/
def analyze (lap : ℕ) (samples : List TelemetrySample) (callerTime : Option ℚ)
    (now : ℕ) : Except AnalysisError LapAnalysis :=
  (analyzeCore lap samples callerTime).map fun c =>
    ⟨c.lap_number, c.predicted_lap_time, c.actual_lap_time, c.delta,
     c.performance_score, c.feedback, c.sector_times, c.mistakes_detected, now⟩

/-- Modelled from the spec: the service boundary fetches a lap's samples
from the store; an unknown lap number surfaces LapNotFound, distinct from
EmptyLapData. -/
def fetchAndAnalyze (store : ℕ → Option (List TelemetrySample)) (lap : ℕ)
    (callerTime : Option ℚ) (now : ℕ) : Except AnalysisError LapAnalysis :=
  match store lap with
  | none => .error .LapNotFound
  | some samples => analyze lap samples callerTime now

theorem analyze_strip (lap : ℕ) (samples : List TelemetrySample)
    (callerTime : Option ℚ) (now : ℕ) :
    (analyze lap samples callerTime now).map stripCreated
      = analyzeCore lap samples callerTime := by
  unfold analyze
  cases analyzeCore lap samples callerTime <;> rfl

/-- C3: the pipeline is deterministic as a two-run property: two calls of
analyze with identical lap number, samples and caller lap time agree on
every field except created_at (in particular on predicted_lap_time,
delta, performance_score, sector_times and mistakes_detected), and the
Mistake Detector run twice on identical input yields the identical
list. -/
theorem analyze_deterministic (lap : ℕ) (samples : List TelemetrySample)
    (callerTime : Option ℚ) (now1 now2 : ℕ) :
    (analyze lap samples callerTime now1).map stripCreated
        = (analyze lap samples callerTime now2).map stripCreated
      ∧ detectMistakes samples = detectMistakes samples := by
  exact ⟨by rw [analyze_strip, analyze_strip], rfl⟩

/-- C6: the three data-availability failures are distinguished: an empty
sample list fails with EmptyLapData; samples with no lap_time anywhere and
no caller-supplied time fail with MissingLapTime, a 400-class error
distinct from not-found; and an unknown lap number at the boundary fails
with LapNotFound, surfaced as 404 and distinct from EmptyLapData. -/
theorem analyze_error_taxonomy (lap : ℕ) (samples : List TelemetrySample)
    (callerTime : Option ℚ) (now : ℕ)
    (store : ℕ → Option (List TelemetrySample))
    (hsome : samples ≠ []) (hnotime : ∀ p ∈ samples, p.lap_time = none)
    (hnocaller : callerTime = none) (hmiss : store lap = none) :
    analyze lap [] callerTime now = .error .EmptyLapData
      ∧ analyze lap samples callerTime now = .error .MissingLapTime
      ∧ fetchAndAnalyze store lap callerTime now = .error .LapNotFound
      ∧ httpStatusOf .MissingLapTime = 400
      ∧ httpStatusOf .LapNotFound = 404
      ∧ AnalysisError.MissingLapTime ≠ AnalysisError.LapNotFound
      ∧ AnalysisError.LapNotFound ≠ AnalysisError.EmptyLapData := by
  refine ⟨rfl, ?_, ?_, rfl, rfl, by decide, by decide⟩
  · rcases samples with _ | ⟨first, rest⟩
    · exact absurd rfl hsome
    · have hres : resolveLapTime (first :: rest) callerTime = none := by
        rw [hnocaller]
        unfold resolveLapTime
        rw [List.findSome?_eq_none_iff]
        exact hnotime
      rw [analyze, analyzeCore, hres]
      rfl
  · unfold fetchAndAnalyze
    rw [hmiss]

/-- Witness for C6 with one timestamped sample lacking a lap time, no
caller time, and an empty store. -/
theorem analyze_error_taxonomy_witness :
    ([⟨1, 1, 0, 120, 100, 0, 0, 3, "soft", 5, 40, none⟩]
          : List TelemetrySample) ≠ []
      ∧ (∀ p ∈ ([⟨1, 1, 0, 120, 100, 0, 0, 3, "soft", 5, 40, none⟩]
          : List TelemetrySample), p.lap_time = none)
      ∧ (analyze 1 [] none 0 = .error .EmptyLapData
        ∧ analyze 1 [⟨1, 1, 0, 120, 100, 0, 0, 3, "soft", 5, 40, none⟩] none 0
            = .error .MissingLapTime
        ∧ fetchAndAnalyze (fun _ => none) 1 none 0 = .error .LapNotFound
        ∧ httpStatusOf .MissingLapTime = 400
        ∧ httpStatusOf .LapNotFound = 404
        ∧ AnalysisError.MissingLapTime ≠ AnalysisError.LapNotFound
        ∧ AnalysisError.LapNotFound ≠ AnalysisError.EmptyLapData) :=
  ⟨by simp, by simp,
    analyze_error_taxonomy 1 [⟨1, 1, 0, 120, 100, 0, 0, 3, "soft", 5, 40, none⟩]
      none 0 (fun _ => none) (by simp) (by simp) rfl rfl⟩

/-- The query parameters of GET /telemetry/predict-laptime, embedded from
the frontend API client predictLapTime (src/unnamed/part_001) and the
documented parameter list in src/docs/API.md. -/
def predictLapTimeQueryParams : List String :=
  ["tire_compound", "tire_wear", "track_temp"]

/-- The key_factors keys of the documented predict-laptime response in
src/docs/API.md. -/
def predictLapTimeResponseKeyFactors : List String :=
  ["tire_compound", "tire_wear", "track_temperature", "avg_speed"]

/-- C8 counterexample: the exposed predict operation does not take
avg_speed as an input; its query parameter list has exactly three entries
and avg_speed is not among them. -/
theorem predictLapTime_three_params_counterexample :
    predictLapTimeQueryParams.length = 3
      ∧ "avg_speed" ∉ predictLapTimeQueryParams := by
  constructor
  · rfl
  · intro h
    simp [predictLapTimeQueryParams] at h

/-- C8 amended: the exposed predict operation takes exactly the three
inputs tire_compound, tire_wear and track_temp; avg_speed appears only
among the key_factors of the response; the fallback result carries
exactly the documented key-factor keys, so the response shape is the
PredictionResult structure either way. -/
theorem predictLapTime_exposed_signature :
    predictLapTimeQueryParams = ["tire_compound", "tire_wear", "track_temp"]
      ∧ "avg_speed" ∉ predictLapTimeQueryParams
      ∧ "avg_speed" ∈ predictLapTimeResponseKeyFactors
      ∧ fallbackKeyFactors.map (fun kv => kv.1)
          = predictLapTimeResponseKeyFactors := by
  refine ⟨rfl, ?_, ?_, rfl⟩
  · intro h
    simp [predictLapTimeQueryParams] at h
  · simp [predictLapTimeResponseKeyFactors]

/-- Solidity uint256 modulus; Solidity 0.8 checked arithmetic reverts on
overflow, modelled by explicit bound checks. -/
def UINT_MOD : ℕ := 2 ^ 256

/-- On-chain lap record, embedded from the LapRecord struct of
src/contracts/contracts/F1TelemetryRegistry.sol; the Solidity field called
exists is named lapExists here. -/
structure LapRecord where
  lapNumber : ℕ
  lapTime : ℕ
  ipfsHash : String
  performanceScore : ℕ
  sectorTimes : ℕ × ℕ × ℕ
  recorder : ℕ
  timestamp : ℕ
  lapExists : Bool
deriving DecidableEq

/-- The default value a Solidity mapping yields for an unset key. -/
def defaultLapRecord : LapRecord := ⟨0, 0, "", 0, (0, 0, 0), 0, 0, false⟩

/-- Contract storage of F1TelemetryRegistry: the laps mapping, the
lapNumbers array, the totalLaps counter and the owner address. -/
structure RegistryState where
  laps : ℕ → LapRecord
  lapNumbers : List ℕ
  totalLaps : ℕ
  owner : ℕ

/-- The state established by the constructor of F1TelemetryRegistry. -/
def initialState (deployer : ℕ) : RegistryState :=
  ⟨fun _ => defaultLapRecord, [], 0, deployer⟩

/-- The sum of the three sector times computed inside recordLap. -/
def sectorSum (st : ℕ × ℕ × ℕ) : ℕ := st.1 + st.2.1 + st.2.2

/-- recordLap, embedded from F1TelemetryRegistry.sol lines 105 to 151: the
lapNotExists modifier, the three require statements, the checked-overflow
1 percent sector-sum window, then storage of the record, push of the lap
number and increment of totalLaps.  The NewFastestLap event emission has
no storage effect and is omitted. -/
def recordLap (s : RegistryState) (sender now ln lt : ℕ) (hash : String)
    (score : ℕ) (st : ℕ × ℕ × ℕ) : Except String RegistryState :=
  if (s.laps ln).lapExists then .error "Lap already recorded"
  else if lt = 0 then .error "Lap time must be greater than 0"
  else if 100 < score then .error "Performance score must be <= 100"
  else if hash = "" then .error "IPFS hash cannot be empty"
  else if UINT_MOD ≤ st.1 + st.2.1 then .error "arithmetic overflow"
  else if UINT_MOD ≤ sectorSum st then .error "arithmetic overflow"
  else if UINT_MOD ≤ lt * 99 then .error "arithmetic overflow"
  else if UINT_MOD ≤ lt * 101 then .error "arithmetic overflow"
  else if sectorSum st < lt * 99 / 100 ∨ lt * 101 / 100 < sectorSum st then
    .error "Sector times must sum to lap time"
  else if UINT_MOD ≤ s.totalLaps + 1 then .error "arithmetic overflow"
  else
    .ok { laps := fun m =>
            if m = ln then ⟨ln, lt, hash, score, st, sender, now, true⟩
            else s.laps m,
          lapNumbers := s.lapNumbers ++ [ln],
          totalLaps := s.totalLaps + 1,
          owner := s.owner }

/-- The reachable contract states: the constructor state, closed under
successful recordLap calls (the only function that writes storage). -/
inductive Reachable : RegistryState → Prop
  | init (deployer : ℕ) : Reachable (initialState deployer)
  | record (s s' : RegistryState) (sender now ln lt : ℕ) (hash : String)
      (score : ℕ) (st : ℕ × ℕ × ℕ) (hs : Reachable s)
      (hok : recordLap s sender now ln lt hash score st = .ok s') :
      Reachable s'

theorem recordLap_ok_inv {s : RegistryState} {sender now ln lt : ℕ}
    {hash : String} {score : ℕ} {st : ℕ × ℕ × ℕ} {s' : RegistryState}
    (hok : recordLap s sender now ln lt hash score st = .ok s') :
    ¬ (s.laps ln).lapExists = true ∧ lt ≠ 0 ∧ score ≤ 100 ∧ hash ≠ ""
      ∧ lt * 99 / 100 ≤ sectorSum st ∧ sectorSum st ≤ lt * 101 / 100
      ∧ s' = { laps := fun m =>
                 if m = ln then ⟨ln, lt, hash, score, st, sender, now, true⟩
                 else s.laps m,
               lapNumbers := s.lapNumbers ++ [ln],
               totalLaps := s.totalLaps + 1,
               owner := s.owner } := by
  rw [recordLap] at hok
  by_cases h1 : (s.laps ln).lapExists = true
  · rw [if_pos h1] at hok; exact Except.noConfusion hok
  · rw [if_neg h1] at hok
    by_cases h2 : lt = 0
    · rw [if_pos h2] at hok; exact Except.noConfusion hok
    · rw [if_neg h2] at hok
      by_cases h3 : 100 < score
      · rw [if_pos h3] at hok; exact Except.noConfusion hok
      · rw [if_neg h3] at hok
        by_cases h4 : hash = ""
        · rw [if_pos h4] at hok; exact Except.noConfusion hok
        · rw [if_neg h4] at hok
          by_cases h5 : UINT_MOD ≤ st.1 + st.2.1
          · rw [if_pos h5] at hok; exact Except.noConfusion hok
          · rw [if_neg h5] at hok
            by_cases h6 : UINT_MOD ≤ sectorSum st
            · rw [if_pos h6] at hok; exact Except.noConfusion hok
            · rw [if_neg h6] at hok
              by_cases h7 : UINT_MOD ≤ lt * 99
              · rw [if_pos h7] at hok; exact Except.noConfusion hok
              · rw [if_neg h7] at hok
                by_cases h8 : UINT_MOD ≤ lt * 101
                · rw [if_pos h8] at hok; exact Except.noConfusion hok
                · rw [if_neg h8] at hok
                  by_cases h9 : sectorSum st < lt * 99 / 100
                      ∨ lt * 101 / 100 < sectorSum st
                  · rw [if_pos h9] at hok; exact Except.noConfusion hok
                  · rw [if_neg h9] at hok
                    by_cases h10 : UINT_MOD ≤ s.totalLaps + 1
                    · rw [if_pos h10] at hok; exact Except.noConfusion hok
                    · rw [if_neg h10] at hok
                      rw [not_or, not_lt, not_lt] at h9
                      injection hok with hs'
                      exact ⟨h1, h2, not_lt.mp h3, h4, h9.1, h9.2, hs'.symm⟩

/-- C9: in every reachable state, every stored lap with lapExists true has
a positive lap time, a performance score of at most 100, a non-empty IPFS
hash and a sector-time sum inside the 1 percent window around the lap
time; totalLaps always equals the length of lapNumbers; and recordLap on
an already-recorded lap number reverts, so records are never
overwritten. -/
theorem registry_invariant (s : RegistryState) (h : Reachable s) :
    (∀ n, (s.laps n).lapExists = true →
        0 < (s.laps n).lapTime
          ∧ (s.laps n).performanceScore ≤ 100
          ∧ (s.laps n).ipfsHash ≠ ""
          ∧ (s.laps n).lapTime * 99 / 100 ≤ sectorSum (s.laps n).sectorTimes
          ∧ sectorSum (s.laps n).sectorTimes ≤ (s.laps n).lapTime * 101 / 100)
      ∧ s.totalLaps = s.lapNumbers.length
      ∧ (∀ sender now ln lt hash score st, (s.laps ln).lapExists = true →
          ∃ msg, recordLap s sender now ln lt hash score st = .error msg) := by
  have main : (∀ n, (s.laps n).lapExists = true →
      0 < (s.laps n).lapTime
        ∧ (s.laps n).performanceScore ≤ 100
        ∧ (s.laps n).ipfsHash ≠ ""
        ∧ (s.laps n).lapTime * 99 / 100 ≤ sectorSum (s.laps n).sectorTimes
        ∧ sectorSum (s.laps n).sectorTimes ≤ (s.laps n).lapTime * 101 / 100)
      ∧ s.totalLaps = s.lapNumbers.length := by
    induction h with
    | init d =>
      refine ⟨fun n hex => ?_, rfl⟩
      simp [initialState, defaultLapRecord] at hex
    | record s s' sender now ln lt hash score st hs hok ih =>
      obtain ⟨h1, h2, h3, h4, h9a, h9b, hs'⟩ := recordLap_ok_inv hok
      subst hs'
      constructor
      · intro n hex
        by_cases hn : n = ln
        · subst hn
          simp only [if_pos rfl]
          exact ⟨Nat.pos_of_ne_zero h2, h3, h4, h9a, h9b⟩
        · simp only [if_neg hn] at hex ⊢
          exact ih.1 n hex
      · simp [ih.2]
  exact ⟨main.1, main.2, fun sender now ln lt hash score st hex =>
    ⟨"Lap already recorded", by rw [recordLap, if_pos hex]⟩⟩

/-- The state after recording lap 1 with time 90000 ms and three 30000 ms
sectors on the freshly deployed contract. -/
def exampleRegistry : RegistryState :=
  { laps := fun m =>
      if m = 1 then ⟨1, 90000, "Qm", 95, (30000, 30000, 30000), 7, 0, true⟩
      else defaultLapRecord,
    lapNumbers := [1],
    totalLaps := 1,
    owner := 7 }

/-- Witness for C9 at the one-lap reachable state. -/
theorem registry_invariant_witness :
    (∀ n, (exampleRegistry.laps n).lapExists = true →
        0 < (exampleRegistry.laps n).lapTime
          ∧ (exampleRegistry.laps n).performanceScore ≤ 100
          ∧ (exampleRegistry.laps n).ipfsHash ≠ ""
          ∧ (exampleRegistry.laps n).lapTime * 99 / 100
              ≤ sectorSum (exampleRegistry.laps n).sectorTimes
          ∧ sectorSum (exampleRegistry.laps n).sectorTimes
              ≤ (exampleRegistry.laps n).lapTime * 101 / 100)
      ∧ exampleRegistry.totalLaps = exampleRegistry.lapNumbers.length
      ∧ (∀ sender now ln lt hash score st,
          (exampleRegistry.laps ln).lapExists = true →
          ∃ msg, recordLap exampleRegistry sender now ln lt hash score st
            = .error msg) :=
  registry_invariant exampleRegistry
    (Reachable.record (initialState 7) exampleRegistry 7 0 1 90000 "Qm" 95
      (30000, 30000, 30000) (Reachable.init 7) (by rfl))

/-- The in-memory copy of all lap records in lapNumbers order, embedded
from the allLaps loop of getLeaderboard (F1TelemetryRegistry.sol lines 214
to 217; the loop bound totalLaps equals the array length by the contract
invariant). -/
def allLaps (s : RegistryState) : List LapRecord :=
  s.lapNumbers.map s.laps

/-- One pass of getLeaderboard's inner loop: the first minimum-lapTime
record among a non-empty collection (strict comparison, so the earliest of
equal times wins), together with the remaining records. -/
def selectMin (x : LapRecord) : List LapRecord → LapRecord × List LapRecord
  | [] => (x, [])
  | y :: ys =>
    if y.lapTime < x.lapTime then
      ((selectMin y ys).1, x :: (selectMin y ys).2)
    else
      ((selectMin x ys).1, y :: (selectMin x ys).2)

/-- The partial selection sort performed by getLeaderboard's outer loop:
the first k minima in extraction order, together with the untaken
remainder. -/
def selectTop : ℕ → List LapRecord → List LapRecord × List LapRecord
  | 0, l => ([], l)
  | _ + 1, [] => ([], [])
  | k + 1, x :: xs =>
    ((selectMin x xs).1 :: (selectTop k (selectMin x xs).2).1,
     (selectTop k (selectMin x xs).2).2)

/-- getLeaderboard, embedded from F1TelemetryRegistry.sol lines 203 to
237: reverts unless the count is between 1 and 50, then returns the
min(count, totalLaps) fastest records by repeated minimum extraction (the
source comment says bubble sort; the loop is a partial selection sort). -/
def getLeaderboard (s : RegistryState) (count : ℕ) :
    Except String (List LapRecord) :=
  if count = 0 ∨ 50 < count then .error "Count must be between 1 and 50"
  else .ok (selectTop count (allLaps s)).1

theorem selectMin_perm (l : List LapRecord) : ∀ x,
    List.Perm ((selectMin x l).1 :: (selectMin x l).2) (x :: l) := by
  induction l with
  | nil => intro x; exact List.Perm.refl _
  | cons y ys ih =>
    intro x
    rw [selectMin]
    by_cases h : y.lapTime < x.lapTime
    · rw [if_pos h]
      exact (List.Perm.swap x (selectMin y ys).1 (selectMin y ys).2).trans
        ((ih y).cons x)
    · rw [if_neg h]
      exact (List.Perm.swap y (selectMin x ys).1 (selectMin x ys).2).trans
        (((ih x).cons y).trans (List.Perm.swap x y ys))

theorem selectMin_le (l : List LapRecord) : ∀ x,
    (selectMin x l).1.lapTime ≤ x.lapTime
      ∧ ∀ y ∈ l, (selectMin x l).1.lapTime ≤ y.lapTime := by
  induction l with
  | nil => intro x; exact ⟨le_rfl, by simp⟩
  | cons y ys ih =>
    intro x
    rw [selectMin]
    by_cases h : y.lapTime < x.lapTime
    · rw [if_pos h]
      refine ⟨le_of_lt (lt_of_le_of_lt (ih y).1 h), ?_⟩
      intro z hz
      rcases List.mem_cons.mp hz with hzy | hz
      · rw [hzy]; exact (ih y).1
      · exact (ih y).2 z hz
    · rw [if_neg h]
      refine ⟨(ih x).1, ?_⟩
      intro z hz
      rcases List.mem_cons.mp hz with hzy | hz
      · rw [hzy]; exact le_trans (ih x).1 (not_lt.mp h)
      · exact (ih x).2 z hz

theorem selectMin_fst_le_mem (l : List LapRecord) (x : LapRecord) :
    ∀ b ∈ (selectMin x l).2, (selectMin x l).1.lapTime ≤ b.lapTime := by
  intro b hb
  have hmem : b ∈ x :: l :=
    (selectMin_perm l x).subset (List.mem_cons_of_mem _ hb)
  rcases List.mem_cons.mp hmem with rfl | hmem
  · exact (selectMin_le l b).1
  · exact (selectMin_le l x).2 b hmem

theorem selectTop_perm (k : ℕ) : ∀ l : List LapRecord,
    List.Perm ((selectTop k l).1 ++ (selectTop k l).2) l := by
  induction k with
  | zero => intro l; simp [selectTop]
  | succ k ih =>
    intro l
    cases l with
    | nil => simp [selectTop]
    | cons x xs =>
      rw [selectTop]
      exact (((ih (selectMin x xs).2).cons (selectMin x xs).1).trans
        (selectMin_perm xs x))

theorem selectTop_length (k : ℕ) : ∀ l : List LapRecord,
    (selectTop k l).1.length = min k l.length := by
  induction k with
  | zero => intro l; simp [selectTop]
  | succ k ih =>
    intro l
    cases l with
    | nil => simp [selectTop]
    | cons x xs =>
      rw [selectTop]
      have hlen : (selectMin x xs).2.length = xs.length := by
        have := (selectMin_perm xs x).length_eq
        simpa using this
      simp only [List.length_cons, ih (selectMin x xs).2, hlen]
      omega

theorem selectTop_sorted (k : ℕ) : ∀ l : List LapRecord,
    List.Sorted (fun a b : LapRecord => a.lapTime ≤ b.lapTime)
      (selectTop k l).1 := by
  induction k with
  | zero => intro l; simp [selectTop]
  | succ k ih =>
    intro l
    cases l with
    | nil => simp [selectTop]
    | cons x xs =>
      rw [selectTop]
      rw [List.sorted_cons]
      refine ⟨?_, ih (selectMin x xs).2⟩
      intro b hb
      have hb2 : b ∈ (selectMin x xs).2 :=
        (selectTop_perm k (selectMin x xs).2).subset (List.mem_append_left _ hb)
      exact selectMin_fst_le_mem xs x b hb2

theorem selectTop_le_rest (k : ℕ) : ∀ l : List LapRecord,
    ∀ a ∈ (selectTop k l).1, ∀ b ∈ (selectTop k l).2,
      a.lapTime ≤ b.lapTime := by
  induction k with
  | zero => intro l a ha; simp [selectTop] at ha
  | succ k ih =>
    intro l
    cases l with
    | nil => intro a ha; simp [selectTop] at ha
    | cons x xs =>
      rw [selectTop]
      intro a ha b hb
      rcases List.mem_cons.mp ha with hax | ha
      · rw [hax]
        have hb2 : b ∈ (selectMin x xs).2 :=
          (selectTop_perm k (selectMin x xs).2).subset
            (List.mem_append_right _ hb)
        exact selectMin_fst_le_mem xs x b hb2
      · exact ih (selectMin x xs).2 a ha b hb

/-- C10: for any count between 1 and 50, getLeaderboard returns exactly
min(count, totalLaps) records, ordered by lapTime non-decreasing, and
these are the recorded laps with the smallest lap times (the returned
records together with an untaken remainder, every element of which is at
least as slow, form a permutation of all recorded laps); a count of 0 or
above 50 reverts. -/
theorem getLeaderboard_spec (s : RegistryState) (count : ℕ)
    (h1 : 1 ≤ count) (h2 : count ≤ 50)
    (h3 : s.totalLaps = s.lapNumbers.length) :
    (∃ res, getLeaderboard s count = .ok res
        ∧ res.length = min count s.totalLaps
        ∧ List.Sorted (fun a b : LapRecord => a.lapTime ≤ b.lapTime) res
        ∧ ∃ rest, List.Perm (res ++ rest) (allLaps s)
            ∧ ∀ a ∈ res, ∀ b ∈ rest, a.lapTime ≤ b.lapTime)
      ∧ (∀ c, c = 0 ∨ 50 < c → ∃ msg, getLeaderboard s c = .error msg) := by
  constructor
  · refine ⟨(selectTop count (allLaps s)).1, ?_, ?_, selectTop_sorted _ _,
      (selectTop count (allLaps s)).2, selectTop_perm _ _, selectTop_le_rest _ _⟩
    · rw [getLeaderboard, if_neg]
      intro hc
      rcases hc with hc | hc <;> omega
    · rw [selectTop_length, allLaps, List.length_map, ← h3]
  · intro c hc
    exact ⟨"Count must be between 1 and 50", by rw [getLeaderboard, if_pos hc]⟩

/-- A registry holding two laps, the second one faster. -/
def twoLapRegistry : RegistryState :=
  { laps := fun m =>
      if m = 1 then ⟨1, 90000, "Qa", 90, (30000, 30000, 30000), 7, 0, true⟩
      else if m = 2 then ⟨2, 88000, "Qb", 95, (29000, 29000, 30000), 7, 0, true⟩
      else defaultLapRecord,
    lapNumbers := [1, 2],
    totalLaps := 2,
    owner := 7 }

/-- Witness for C10 on the two-lap registry with count 1. -/
theorem getLeaderboard_spec_witness :
    1 ≤ 1 ∧ (1 : ℕ) ≤ 50
      ∧ twoLapRegistry.totalLaps = twoLapRegistry.lapNumbers.length
      ∧ ((∃ res, getLeaderboard twoLapRegistry 1 = .ok res
          ∧ res.length = min 1 twoLapRegistry.totalLaps
          ∧ List.Sorted (fun a b : LapRecord => a.lapTime ≤ b.lapTime) res
          ∧ ∃ rest, List.Perm (res ++ rest) (allLaps twoLapRegistry)
              ∧ ∀ a ∈ res, ∀ b ∈ rest, a.lapTime ≤ b.lapTime)
        ∧ (∀ c, c = 0 ∨ 50 < c →
            ∃ msg, getLeaderboard twoLapRegistry c = .error msg)) :=
  ⟨le_rfl, by norm_num, rfl,
    getLeaderboard_spec twoLapRegistry 1 le_rfl (by norm_num) rfl⟩

/-- C1: for positive actual and predicted lap times and any mistake list,
the Performance Scorer returns the clamp of 100 minus 20 times the
percentage delta minus the summed per-mistake penalties, and the result
always lies between 0 and 100. -/
theorem performanceScore_formula_and_bounds (actual predicted : ℚ)
    (ms : List Mistake) (ha : 0 < actual) (hp : 0 < predicted) :
    performanceScore actual predicted ms
        = max 0 (min 100 (100 - (|actual - predicted| / predicted * 100) * 20
            - (ms.map (fun m => 5 + severityBonus m.severity)).sum))
      ∧ 0 ≤ performanceScore actual predicted ms
      ∧ performanceScore actual predicted ms ≤ 100 := by
  refine ⟨rfl, le_max_left _ _, ?_⟩
  exact max_le (by norm_num) (min_le_left _ _)

/-- Witness for C1 at actual 89.234, predicted 88.456 and one medium
mistake. -/
theorem performanceScore_formula_and_bounds_witness :
    (0 : ℚ) < 89234/1000 ∧ (0 : ℚ) < 88456/1000 ∧
      (performanceScore (89234/1000) (88456/1000)
          [mkMistake 2 .late_braking "Late braking" (234/1000)]
          = max 0 (min 100 (100 - (|(89234/1000 : ℚ) - 88456/1000| / (88456/1000) * 100) * 20
              - ([mkMistake 2 .late_braking "Late braking" (234/1000)].map
                  (fun m => 5 + severityBonus m.severity)).sum))
        ∧ 0 ≤ performanceScore (89234/1000) (88456/1000)
            [mkMistake 2 .late_braking "Late braking" (234/1000)]
        ∧ performanceScore (89234/1000) (88456/1000)
            [mkMistake 2 .late_braking "Late braking" (234/1000)] ≤ 100) :=
  ⟨by norm_num, by norm_num,
    performanceScore_formula_and_bounds (89234/1000) (88456/1000)
      [mkMistake 2 .late_braking "Late braking" (234/1000)]
      (by norm_num) (by norm_num)⟩

/-- C2: the Performance Scorer is monotonically non-increasing in both
penalty sources: appending one more mistake of any severity never raises
the score, and (for a fixed mistake list and a positive predicted time)
enlarging the absolute delta never raises the score. -/
theorem performanceScore_monotone (actual actual' predicted : ℚ)
    (ms : List Mistake) (m : Mistake) (hp : 0 < predicted)
    (hd : |actual - predicted| ≤ |actual' - predicted|) :
    performanceScore actual predicted (ms ++ [m])
        ≤ performanceScore actual predicted ms
      ∧ performanceScore actual' predicted ms
        ≤ performanceScore actual predicted ms := by
  constructor
  · apply clamp_mono
    have hb : 0 ≤ severityBonus m.severity := severityBonus_nonneg m.severity
    rw [mistakePenalty_append]
    linarith
  · apply clamp_mono
    have hdiv : |actual - predicted| / predicted ≤ |actual' - predicted| / predicted :=
      div_le_div_of_nonneg_right ?_ hp.le
    · nlinarith
    · exact hd

/-- Witness for C2 at actual 91, shifted actual 93, predicted 90 and a
singleton mistake list. -/
theorem performanceScore_monotone_witness :
    (0 : ℚ) < 90 ∧ |(91 : ℚ) - 90| ≤ |(93 : ℚ) - 90| ∧
      (performanceScore 91 90 ([mkMistake 1 .throttle_lift "Lift" (15/100)]
            ++ [mkMistake 3 .tire_degradation "Wear" (25/100)])
          ≤ performanceScore 91 90 [mkMistake 1 .throttle_lift "Lift" (15/100)]
        ∧ performanceScore 93 90 [mkMistake 1 .throttle_lift "Lift" (15/100)]
          ≤ performanceScore 91 90 [mkMistake 1 .throttle_lift "Lift" (15/100)]) :=
  ⟨by norm_num, by rw [abs_of_nonneg, abs_of_nonneg] <;> norm_num,
    performanceScore_monotone 91 93 90
      [mkMistake 1 .throttle_lift "Lift" (15/100)]
      (mkMistake 3 .tire_degradation "Wear" (25/100))
      (by norm_num) (by rw [abs_of_nonneg, abs_of_nonneg] <;> norm_num)⟩

/-- C7: for every in-range input (valid compound, wear in 0 to 100,
temperature in 0 to 60, positive in-range average speed) the predictor
returns a result with strictly positive predicted time, a confidence
interval containing the predicted time, and key-factor weights summing to
within a small tolerance of 1; out-of-range or unparseable inputs fail
with InvalidParameter before any computation. -/
theorem predict_contract (compound : String) (c : TireCompound)
    (wear temp speed : ℚ) (hc : parseCompound compound = some c)
    (hw0 : 0 ≤ wear) (hw1 : wear ≤ 100) (ht0 : 0 ≤ temp) (ht1 : temp ≤ 60)
    (hs0 : 0 < speed) (hs1 : speed ≤ 400) :
    (∃ r, predict compound wear temp speed = .ok r
        ∧ 0 < r.predicted_time
        ∧ r.confidence_interval.1 ≤ r.predicted_time
        ∧ r.predicted_time ≤ r.confidence_interval.2
        ∧ |(r.key_factors.map (fun kv => kv.2)).sum - 1| ≤ 1/100
        ∧ r.key_factors = fallbackKeyFactors)
      ∧ (∀ w' t' s', (w' < 0 ∨ 100 < w' ∨ t' < 0 ∨ 60 < t' ∨ s' ≤ 0 ∨ 400 < s') →
          predict compound w' t' s' = .error .InvalidParameter)
      ∧ (∀ str w' t' s', parseCompound str = none →
          predict str w' t' s' = .error .InvalidParameter) := by
  have hmargin : 0 ≤ predictMargin wear := by unfold predictMargin; linarith
  have heq : predict compound wear temp speed = .ok
      { predicted_time := fallbackPredictedTime c wear temp speed,
        confidence_interval :=
          (fallbackPredictedTime c wear temp speed - predictMargin wear,
           fallbackPredictedTime c wear temp speed + predictMargin wear),
        key_factors := fallbackKeyFactors } := by
    simp only [predict, hc]
    rw [if_neg (by simp only [not_or, not_lt]; exact ⟨hw0, hw1⟩),
        if_neg (by simp only [not_or, not_lt]; exact ⟨ht0, ht1⟩),
        if_neg (by simp only [not_or, not_le, not_lt]; exact ⟨hs0, hs1⟩)]
  refine ⟨⟨_, heq, ?_, ?_, ?_, ?_, rfl⟩, ?_, ?_⟩
  · exact fallbackPredictedTime_pos c wear temp speed hw0 ht0 hs1
  · show fallbackPredictedTime c wear temp speed - predictMargin wear
      ≤ fallbackPredictedTime c wear temp speed
    linarith
  · show fallbackPredictedTime c wear temp speed
      ≤ fallbackPredictedTime c wear temp speed + predictMargin wear
    linarith
  · norm_num [fallbackKeyFactors]
  · intro w' t' s' h
    simp only [predict, hc]
    by_cases h1 : w' < 0 ∨ 100 < w'
    · simp [h1]
    · by_cases h2 : t' < 0 ∨ 60 < t'
      · simp [h1, h2]
      · by_cases h3 : s' ≤ 0 ∨ 400 < s'
        · simp [h1, h2, h3]
        · exfalso
          simp only [not_or, not_lt, not_le] at h1 h2 h3
          rcases h with h | h | h | h | h | h <;>
            first
              | exact absurd h (not_lt.2 h1.1)
              | exact absurd h (not_lt.2 h1.2)
              | exact absurd h (not_lt.2 h2.1)
              | exact absurd h (not_lt.2 h2.2)
              | exact absurd h (not_le.2 h3.1)
              | exact absurd h (not_lt.2 h3.2)
  · intro str w' t' s' hnone
    simp [predict, hnone]

/-- Witness for C7 at the spec's Scenario E input: soft compound, wear
25.5, track temperature 42, average speed 210. -/
theorem predict_contract_witness :
    parseCompound "soft" = some TireCompound.soft ∧
      ((∃ r, predict "soft" (255/10) 42 210 = .ok r
          ∧ 0 < r.predicted_time
          ∧ r.confidence_interval.1 ≤ r.predicted_time
          ∧ r.predicted_time ≤ r.confidence_interval.2
          ∧ |(r.key_factors.map (fun kv => kv.2)).sum - 1| ≤ 1/100
          ∧ r.key_factors = fallbackKeyFactors)
        ∧ (∀ w' t' s', (w' < 0 ∨ 100 < w' ∨ t' < 0 ∨ 60 < t' ∨ s' ≤ 0 ∨ 400 < s') →
            predict "soft" w' t' s' = .error .InvalidParameter)
        ∧ (∀ str w' t' s', parseCompound str = none →
            predict str w' t' s' = .error .InvalidParameter)) :=
  ⟨rfl, predict_contract "soft" TireCompound.soft (255/10) 42 210 rfl
    (by norm_num) (by norm_num) (by norm_num) (by norm_num)
    (by norm_num) (by norm_num)⟩
